import Mathlib

/-!
Shallow embedding of the 0DMRMaster DMR master server core:
packet codec (mmdvm_l1.py), peer state machine (peer.py, peer_controller.py),
call tracker and dispatcher (call.py, dispatcher.py), and the embedded-LC
assembler (lc_util.py).  Byte strings are modelled as `List Nat`
(big-endian multibyte integers, as in the source).
-/

namespace DMRMaster

/-! ### Byte-level utilities -/

/-- Byte strings (Python `bytes` / `bytearray`), one `Nat` per byte. -/
abbrev Bytes := List Nat

/-- Source addresses `(host, port)`. -/
abbrev Addr := Nat × Nat

/-- Big-endian value of a byte string (`int.from_bytes(..., "big")`). -/
def beVal (bs : Bytes) : Nat := bs.foldl (fun acc b => acc * 256 + b) 0

/-- Big-endian 4-byte encoding (`value.to_bytes(4, "big")`). -/
def u32be (v : Nat) : Bytes :=
  [v / 16777216 % 256, v / 65536 % 256, v / 256 % 256, v % 256]

/-- Slice `d[off : off+len]` (Python slicing clamps at the end). -/
def slice (d : Bytes) (off len : Nat) : Bytes := (d.drop off).take len

/-- Integer field read: big-endian value of `d[off : off+len]`
(`DMRPFieldInt.__get__`). -/
def fieldInt (d : Bytes) (off len : Nat) : Nat := beVal (slice d off len)

/-- In-place field write `d[off : off+v.length] = v`
(`DMRPFieldBase.set`). -/
def setBytesAt (d : Bytes) (off : Nat) (v : Bytes) : Bytes :=
  d.take off ++ v ++ d.drop (off + v.length)

/-- Python `data.startswith(pre)`. -/
def bytesStartsWith : Bytes → Bytes → Bool
  | _, [] => true
  | [], _ :: _ => false
  | b :: bs, p :: ps => b == p && bytesStartsWith bs ps

/-- UTF-8 encoding of a string (Python `str.encode()`). -/
def strEncode (s : String) : Bytes := s.toUTF8.toList.map (fun b => b.toNat)

/-- Membership in Python `b"\x20\x00"`: the pad bytes stripped by
`DMRPFieldStr.__get__`. -/
def isPadByte (b : Nat) : Bool := b == 32 || b == 0

/-- ASCII decoding with `errors="ignore"`: bytes 128 and above are
dropped. -/
def asciiDecodeIgnore (bs : Bytes) : String :=
  String.mk ((bs.filter (fun b => b < 128)).map Char.ofNat)

/-- `DMRPFieldStr.__get__`: read the slice, strip pad bytes from both
ends, decode as ASCII ignoring errors. -/
def fieldStr (d : Bytes) (off len : Nat) : String :=
  asciiDecodeIgnore
    (((slice d off len).dropWhile isPadByte).reverse.dropWhile
        isPadByte).reverse

/-! ### Packet codec (`mmdvm_l1.py`) -/

/-- One tag per concrete `DMRPBasePacket` subclass registered with the
factory. -/
inductive PktTag
  | masterNoAck | masterClose | repeaterClose | login | ack | auth
  | config | ping | pong | salt | beacon | dmrData | talkerAlias
deriving DecidableEq

/-- `PKT_TYPE` magic for each packet class, as ASCII byte values. -/
def pktType : PktTag → Bytes
  | .masterNoAck   => [77, 83, 84, 78, 65, 75]          -- MSTNAK
  | .masterClose   => [77, 83, 84, 67, 76]              -- MSTCL
  | .repeaterClose => [82, 80, 84, 67, 76]              -- RPTCL
  | .login         => [82, 80, 84, 76]                  -- RPTL
  | .ack           => [82, 80, 84, 65, 67, 75]          -- RPTACK
  | .auth          => [82, 80, 84, 75]                  -- RPTK
  | .config        => [82, 80, 84, 67]                  -- RPTC
  | .ping          => [82, 80, 84, 80, 73, 78, 71]      -- RPTPING
  | .pong          => [77, 83, 84, 80, 79, 78, 71]      -- MSTPONG
  | .salt          => [82, 80, 84, 65, 67, 75]          -- RPTACK
  | .beacon        => [82, 80, 84, 83, 66, 75, 78]      -- RPTSBKN
  | .dmrData       => [68, 77, 82, 68]                  -- DMRD
  | .talkerAlias   => [68, 77, 82, 65]                  -- DMRA

/-- `PKT_SIZE` for each packet class. -/
def pktSize : PktTag → Nat
  | .masterNoAck => 10 | .masterClose => 9 | .repeaterClose => 9
  | .login => 8 | .ack => 10 | .auth => 40 | .config => 302
  | .ping => 11 | .pong => 11 | .salt => 10 | .beacon => 11
  | .dmrData => 55 | .talkerAlias => 15

/-- `DMRPBasePacket.detect_by_data`: nonzero size must match the length and
the magic must be a prefix of the data (every registered class has a
nonzero `PKT_SIZE` and a nonempty `PKT_TYPE`). -/
def detect_by_data (t : PktTag) (d : Bytes) : Bool :=
  pktSize t == d.length && bytesStartsWith d (pktType t)

/-- Registration order of packet classes in `DMRPPacketFactory.__init__`. -/
def factoryOrder : List PktTag :=
  [.masterNoAck, .masterClose, .repeaterClose, .login, .ack, .auth, .config,
   .ping, .pong, .salt, .beacon, .dmrData, .talkerAlias]

/-- `DMRPPacketFactory.fd`: first registered class whose `detect_by_data`
accepts the datagram wins; `none` models `DMRPUnknownPacketTypeException`.
The produced packet keeps the raw bytes (`from_data` cannot fail after a
successful detect). -/
def DMRPPacketFactory.fd (d : Bytes) : Option (PktTag × Bytes) :=
  (factoryOrder.find? (fun t => detect_by_data t d)).map (fun t => (t, d))

/-- `DMRPBasePacket.create`: zero-filled buffer of `PKT_SIZE` bytes with the
magic written at the front; `DMRPPacketConfig.create` fills with ASCII
spaces instead. -/
def createPacket (t : PktTag) : Bytes :=
  pktType t ++
    List.replicate (pktSize t - (pktType t).length)
      (if t = .config then 32 else 0)

/-- Declared integer and byte fields of each packet class, as
`(offset, length)` pairs.  `peer_id` sits at `len(PKT_TYPE)` through the
`DMRPFieldPeerAuto` descriptor except on `DMRD`, which redeclares it at
offset 11. -/
def pktFields : PktTag → List (Nat × Nat)
  | .masterNoAck   => [(6, 4)]
  | .masterClose   => [(5, 4)]
  | .repeaterClose => [(5, 4)]
  | .login         => [(4, 4)]
  | .ack           => [(6, 4)]
  | .auth          => [(4, 4), (8, 32)]
  | .config        => [(4, 4), (8, 8), (16, 9), (25, 9), (34, 2), (36, 2),
                       (38, 8), (46, 9), (55, 3), (58, 20), (78, 19),
                       (97, 1), (98, 124), (222, 40), (262, 40)]
  | .ping          => [(7, 4)]
  | .pong          => [(7, 4)]
  | .salt          => [(6, 4)]
  | .beacon        => [(7, 4)]
  | .dmrData       => [(4, 1), (5, 3), (8, 3), (11, 4), (15, 1), (16, 4),
                       (20, 33), (53, 1), (54, 1)]
  | .talkerAlias   => [(4, 4), (8, 3), (11, 4)]

/-- A field write: target `(offset, length)` and the bytes to store.  Every
descriptor setter in `base_fields.py` ends in
`obj._data[off : off+len] = value` with `len(value)` equal to the field
length and each byte below 256 (`DMRPFieldInt` range-checks and converts,
`DMRPFieldStr` truncates and pads, `DMRPFieldBytes` length-checks). -/
structure FieldWrite where
  off : Nat
  flen : Nat
  val : Bytes

/-- A write is valid for a packet type when it targets a declared field
with bytes of exactly the field length, all below 256. -/
def validWrite (t : PktTag) (w : FieldWrite) : Prop :=
  (w.off, w.flen) ∈ pktFields t ∧ w.val.length = w.flen ∧
    ∀ b ∈ w.val, b < 256

/-- Apply a field write to the backing buffer. -/
def applyWrite (d : Bytes) (w : FieldWrite) : Bytes := setBytesAt d w.off w.val

/-- The data buffers reachable from `create` by valid field assignments:
the "valid field assignments" of the packet type. -/
def validPacketData (t : PktTag) (d : Bytes) : Prop :=
  ∃ ws : List FieldWrite, (∀ w ∈ ws, validWrite t w) ∧
    d = ws.foldl applyWrite (createPacket t)

/-- Structural wellformedness of a packet buffer: declared length and magic
prefix. -/
def wfPacket (t : PktTag) (d : Bytes) : Prop :=
  d.length = pktSize t ∧ ∃ rest, d = pktType t ++ rest

/-! ### DMRD field accessors (`DMRPPacketData`) -/

/-- Call types (`enums.CallType`). -/
inductive CallType | UNIT | GROUP
deriving DecidableEq

/-- Voice types with their 6-bit codes (`enums.VoiceType`). -/
inductive VoiceType
  | NONE | HEAD | BURST_A | BURST_B | BURST_C | BURST_D | BURST_E
  | BURST_F | TERM
deriving DecidableEq

/-- Numeric code of each voice type. -/
def VoiceType.value : VoiceType → Nat
  | .NONE => 0 | .HEAD => 33 | .BURST_A => 16 | .BURST_B => 1
  | .BURST_C => 2 | .BURST_D => 3 | .BURST_E => 4 | .BURST_F => 5
  | .TERM => 34

/-- `VoiceType.from_value`: the `VoiceType(value)` lookup with the
`ValueError` fallback to `NONE`. -/
def VoiceType.from_value (v : Nat) : VoiceType :=
  if v = 0 then .NONE
  else if v = 33 then .HEAD
  else if v = 16 then .BURST_A
  else if v = 1 then .BURST_B
  else if v = 2 then .BURST_C
  else if v = 3 then .BURST_D
  else if v = 4 then .BURST_E
  else if v = 5 then .BURST_F
  else if v = 34 then .TERM
  else .NONE

namespace DMRD

/-- `seq` field of a DMRD buffer. -/
def seq (d : Bytes) : Nat := fieldInt d 4 1

/-- `src_id` field. -/
def src_id (d : Bytes) : Nat := fieldInt d 5 3

/-- `dst_id` field. -/
def dst_id (d : Bytes) : Nat := fieldInt d 8 3

/-- `peer_id` field (redeclared at offset 11 on `DMRPPacketData`). -/
def peer_id (d : Bytes) : Nat := fieldInt d 11 4

/-- `stream_id` field. -/
def stream_id (d : Bytes) : Nat := fieldInt d 16 4

/-- `bits` control byte at offset 15. -/
def bits (d : Bytes) : Nat := fieldInt d 15 1

/-- `dmr_data`: the 33-byte layer-2 payload. -/
def dmr_data (d : Bytes) : Bytes := slice d 20 33

/-- `get_call_type`: bit 6 of the control byte (set means UNIT). -/
def call_type (d : Bytes) : CallType :=
  if bits d &&& 64 ≠ 0 then .UNIT else .GROUP

/-- `get_vseq`: low nibble of the control byte. -/
def vseq (d : Bytes) : Nat := bits d &&& 15

/-- `get_voice_type`: combined view of the low 6 bits of the control
byte. -/
def get_voice_type (d : Bytes) : VoiceType :=
  VoiceType.from_value (bits d &&& 63)

/-- `is_voice_term` property. -/
def is_voice_term (d : Bytes) : Prop := get_voice_type d = VoiceType.TERM

instance (d : Bytes) : Decidable (is_voice_term d) := by
  unfold is_voice_term; infer_instance

end DMRD

/-! ### Layer-2 bit extraction (`etsi_l2.py`) -/

/-- Bits of one byte, most significant first (`bitarray(..., "big")`). -/
def byteBits (b : Nat) : List Bool :=
  [b.testBit 7, b.testBit 6, b.testBit 5, b.testBit 4,
   b.testBit 3, b.testBit 2, b.testBit 1, b.testBit 0]

/-- Big-endian bit string of a byte string. -/
def bytesToBits (bs : Bytes) : List Bool := (bs.map byteBits).flatten

/-- Value of up to eight bits, most significant first, zero-padded at the
end (`bitarray.tobytes` padding of a trailing partial byte). -/
def bitsByteVal (l : List Bool) : Nat :=
  (l ++ List.replicate (8 - l.length) false).take 8
    |>.foldl (fun acc b => acc * 2 + (if b then 1 else 0)) 0

/-- Pack a bit string back into bytes (`bitarray.tobytes`). -/
def bitsToBytes (l : List Bool) : Bytes :=
  if h : l = [] then []
  else bitsByteVal (l.take 8) :: bitsToBytes (l.drop 8)
termination_by l.length
decreasing_by
  simp only [List.length_drop]
  exact Nat.sub_lt (List.length_pos.mpr h) (by norm_num)

/-- `DMRPL2VoiceBurst.get_emb_lc`: bits `[116, 148)` of the 33-byte
payload, packed to 4 bytes. -/
def l2_get_emb_lc (payload : Bytes) : Bytes :=
  bitsToBytes (((bytesToBits payload).drop 116).take 32)

/-- `DMRPPacketData.get_emb_lc`: voice bursts expose the embedded-LC
contribution, other voice types have none. -/
def DMRD.get_emb_lc (d : Bytes) : Option Bytes :=
  match DMRD.get_voice_type d with
  | .BURST_A | .BURST_B | .BURST_C | .BURST_D | .BURST_E | .BURST_F =>
      some (l2_get_emb_lc (DMRD.dmr_data d))
  | _ => none

/-! ### Embedded-LC assembler (`lc_util.py`) -/

/-- Assembler state: collected 4-byte fragments and the vseq of the last
accepted fragment. -/
structure EmbLCAssembler where
  lcs : List Bytes
  vseq : Nat
deriving DecidableEq

/-- Fresh (reset) assembler state (`EmbLCAssembler.reset`). -/
def EmbLCAssembler.init : EmbLCAssembler := ⟨[], 0⟩

/-- `EmbLCAssembler.VTYPE_N_MAP`: burst index of each contributing voice
type. -/
def VTYPE_N_MAP (vt : VoiceType) : Option Nat :=
  match vt with
  | .BURST_B => some 0 | .BURST_C => some 1
  | .BURST_D => some 2 | .BURST_E => some 3
  | _ => none

/-- The `EmbLCAssemblerException` variants raised by
`process_voicedata`. -/
inductive AsmError | wrongVseq | wrongBurstN | noData
deriving DecidableEq

/-- `EmbLCAssembler.process_voicedata`: returns the new state, the raised
error if any, and the "ready" flag. -/
def process_voicedata (a : EmbLCAssembler) (d : Bytes) :
    EmbLCAssembler × Option AsmError × Bool :=
  match VTYPE_N_MAP (DMRD.get_voice_type d) with
  | none => (a, none, false)
  | some burst_n =>
    if burst_n > 0 ∧ DMRD.vseq d ≠ (a.vseq + 1) &&& 255 then
      (EmbLCAssembler.init, some .wrongVseq, false)
    else if a.lcs.length ≠ burst_n then
      (EmbLCAssembler.init, some .wrongBurstN, false)
    else
      match DMRD.get_emb_lc d with
      | none => (EmbLCAssembler.init, some .noData, false)
      | some emblc =>
          (⟨a.lcs ++ [emblc], DMRD.vseq d⟩, none, burst_n == 3)

/-- `EmbLCAssembler.decode`: FEC-decode the concatenation of the four
fragments; `decode_emblc` is the external BPTC primitive, taken as a
parameter. -/
def EmbLCAssembler.decode (decode_emblc : Bytes → Bytes)
    (a : EmbLCAssembler) : Option Bytes :=
  if a.lcs.length ≠ 4 then none
  else some (decode_emblc a.lcs.flatten)

/-! ### Peers (`peer.py`) -/

/-- `Peer.Status`. -/
inductive Status | LOGIN | AUTH | CONFIG | ACTIVE | DEAD
deriving DecidableEq

/-- `Peer.Status.is_applicable`: loose matching via the applicability map;
statuses missing from the map (LOGIN, DEAD) fall back to exact match. -/
def Status.is_applicable (s test : Status) : Bool :=
  match s with
  | .AUTH   => test = .LOGIN ∨ test = .AUTH
  | .CONFIG => test = .LOGIN ∨ test = .AUTH ∨ test = .CONFIG
  | .ACTIVE => test = .LOGIN ∨ test = .AUTH ∨ test = .CONFIG ∨
               test = .ACTIVE
  | _       => s = test

/-- `Peer.PING_TIMEOUT` (seconds). -/
def PING_TIMEOUT : Nat := 130

/-- `Unit.TIMEOUT` (seconds). -/
def UNIT_TIMEOUT : Nat := 3600

/-- A connected repeater.  `units` maps `unit_id` to its last-active time
(the `Unit` objects of the per-peer dict). -/
structure Peer where
  addr : Addr
  auth_salt : Option Bytes
  status : Status
  peer_id : Nat
  connect_time : Nat
  active_time : Nat
  config : List (String × String)
  units : List (Nat × Nat)
deriving DecidableEq

/-- `Peer.__init__`: fresh LOGIN peer for a newly observed address. -/
def newPeer (addr : Addr) (now : Nat) : Peer :=
  { addr := addr, auth_salt := none, status := .LOGIN, peer_id := 0,
    connect_time := now, active_time := now, config := [], units := [] }

/-- `Peer.die`: DEAD status and cleared `peer_id`. -/
def Peer.die (p : Peer) : Peer := { p with status := .DEAD, peer_id := 0 }

/-- `Peer.update_active`. -/
def Peer.update_active (p : Peer) (now : Nat) : Peer :=
  { p with active_time := now }

/-- `Peer.update_unit`: create the unit entry when missing, then touch its
last-active time. -/
def Peer.update_unit (p : Peer) (unit_id now : Nat) : Peer :=
  if (p.units.find? (fun u => u.1 == unit_id)).isSome then
    { p with units :=
        (p.units.map (fun u => if u.1 = unit_id then (u.1, now) else u)) }
  else
    { p with units := p.units ++ [(unit_id, now)] }

/-- `Peer.check_timeout`: still alive when the last activity is younger
than `PING_TIMEOUT`. -/
def Peer.check_timeout (p : Peer) (now : Nat) : Prop :=
  now - p.active_time < PING_TIMEOUT

instance (p : Peer) (now : Nat) : Decidable (p.check_timeout now) := by
  unfold Peer.check_timeout; infer_instance

/-! ### Peer registry (`PeerKeeper`) -/

/-- `PeerKeeper.get_by_addr` lookup part: the existing peer for a source
address, if any. -/
def get_by_addr (peers : List Peer) (addr : Addr) : Option Peer :=
  peers.find? (fun p => p.addr == addr)

/-- `PeerKeeper.get_by_id`: all peers with the given stored `peer_id`. -/
def get_by_id (peers : List Peer) (peer_id : Nat) : List Peer :=
  peers.filter (fun p => p.peer_id == peer_id)

/-- `PeerKeeper.get_by_unit`: all peers whose unit table contains the
unit. -/
def get_by_unit (peers : List Peer) (unit_id : Nat) : List Peer :=
  peers.filter (fun p => (p.units.find? (fun u => u.1 == unit_id)).isSome)

/-- `PeerKeeper.get_active`: all ACTIVE peers. -/
def get_active (peers : List Peer) : List Peer :=
  peers.filter (fun p => p.status == Status.ACTIVE)

/-- Replace the peer stored under an address (the in-place mutation of the
object held by the registry). -/
def replace_by_addr (peers : List Peer) (addr : Addr) (q : Peer) :
    List Peer :=
  peers.map (fun p => if p.addr = addr then q else p)

/-- Per-peer maintenance step: drop timed-out units, then kill the peer on
ping timeout. -/
def maintainPeer (p : Peer) (now : Nat) : Peer :=
  let p := { p with units :=
               (p.units.filter (fun u => now - u.2 < UNIT_TIMEOUT)) }
  if p.check_timeout now then p else p.die

/-- `PeerKeeper.maintain`: age units and peers, then prune DEAD peers. -/
def PeerKeeper.maintain (peers : List Peer) (now : Nat) : List Peer :=
  (peers.map (fun p => maintainPeer p now)).filter
    (fun p => p.status ≠ Status.DEAD)

/-! ### Auth policies (`auth.py`) -/

/-- The three built-in `IPeerAuth` implementations. -/
inductive PeerAuthPolicy
  | allowAll
  | denyAll
  | listAuth (allowed_peers : List (Nat × String))

/-- `calc_password_hash`: SHA-256 of salt plus encoded password; the hash
primitive is a parameter of the development. -/
def calc_password_hash (sha : Bytes → Bytes) (salt : Bytes)
    (password : String) : Bytes :=
  sha (salt ++ strEncode password)

/-- `allow_peer_id` for each policy. -/
def allow_peer_id (policy : PeerAuthPolicy) (peer_id : Nat) : Bool :=
  match policy with
  | .allowAll => true
  | .denyAll => false
  | .listAuth allowed =>
      (allowed.find? (fun e => e.1 == peer_id)).isSome

/-- `check_password` for each policy; an empty configured password accepts
any hash. -/
def check_password (sha : Bytes → Bytes) (policy : PeerAuthPolicy)
    (peer_id : Nat) (salt : Bytes) (pass_hash : Bytes) : Bool :=
  match policy with
  | .allowAll => true
  | .denyAll => false
  | .listAuth allowed =>
      match allowed.find? (fun e => e.1 == peer_id) with
      | none => false
      | some e =>
          if e.2 = "" then true
          else pass_hash == calc_password_hash sha salt e.2

/-! ### Peer controller (`peer_controller.py`) -/

/-- `peer_id` read of a parsed packet: the `DMRPFieldPeerAuto` descriptor
places it right after the magic, except `DMRD` which declares it at
offset 11. -/
def peer_id_of (t : PktTag) (d : Bytes) : Nat :=
  if t = .dmrData then DMRD.peer_id d
  else fieldInt d (pktType t).length 4

/-- `pass_hash` field of an `RPTK` packet. -/
def pass_hash_of (d : Bytes) : Bytes := slice d 8 32

/-- Build a peer packet: `create()` followed by a `peer_id` assignment at
the auto offset (used for `MSTCL`, `MSTPONG`, `RPTACK` replies). -/
def mk_peer_packet (t : PktTag) (peer_id : Nat) : Bytes :=
  setBytesAt (createPacket t) (pktType t).length (u32be peer_id)

/-- `PeerController.send_salt` packet: `DMRPPacketSalt` with the 4 random
salt bytes written at offset 6. -/
def mk_salt_packet (freshSalt : Bytes) : Bytes :=
  setBytesAt (createPacket .salt) 6 freshSalt

/-- `PeerController.send_close`: `MSTCL` carrying the packet id when
nonzero, the peer's stored id otherwise. -/
def send_close_pkt (peer : Peer) (pid : Nat) : Bytes × Addr :=
  (mk_peer_packet .masterClose (if pid ≠ 0 then pid else peer.peer_id),
   peer.addr)

/-- The 14 configuration fields stored by the `RPTC` branch, read through
`DMRPFieldStr`. -/
def extract_config (d : Bytes) : List (String × String) :=
  [("callsign", fieldStr d 8 8), ("rx_freq", fieldStr d 16 9),
   ("tx_freq", fieldStr d 25 9), ("power", fieldStr d 34 2),
   ("color_code", fieldStr d 36 2), ("lat", fieldStr d 38 8),
   ("lon", fieldStr d 46 9), ("height", fieldStr d 55 3),
   ("location", fieldStr d 58 20), ("description", fieldStr d 78 19),
   ("slots", fieldStr d 97 1), ("url", fieldStr d 98 124),
   ("software_id", fieldStr d 222 40), ("package_id", fieldStr d 262 40)]

/-- Result of `PeerController.process_packet`: the mutated peer, the
datagrams sent back, and the continue flag. -/
structure PCResult where
  peer : Peer
  sent : List (Bytes × Addr)
  cont : Bool
deriving DecidableEq

/-- Shared failure path of the controller: `peer.die()` followed by
`send_close(p.peer_id)`. -/
def dieAndClose (peer : Peer) (pid : Nat) : PCResult :=
  let peer := peer.die
  ⟨peer, [send_close_pkt peer pid], false⟩

/-- `PeerController.process_packet`, branch for branch.  `keeper_peers` is
the registry contents used by the duplicate-id check, `freshSalt` stands
for the `random.randbytes(4)` drawn inside `send_salt`. -/
def process_packet (sha : Bytes → Bytes) (policy : PeerAuthPolicy)
    (keeper_peers : List Peer) (peer : Peer) (t : PktTag) (d : Bytes)
    (freshSalt : Bytes) (now : Nat) : PCResult :=
  match t with
  | .repeaterClose => ⟨peer.die, [], false⟩
  | .dmrData =>
    if ¬ peer.status.is_applicable .ACTIVE then
      dieAndClose peer (peer_id_of t d)
    else
      ⟨(peer.update_active now).update_unit (DMRD.src_id d) now, [], true⟩
  | .ping =>
    if ¬ peer.status.is_applicable .ACTIVE then
      dieAndClose peer (peer_id_of t d)
    else
      let peer := peer.update_active now
      ⟨peer, [(mk_peer_packet .pong peer.peer_id, peer.addr)], false⟩
  | .login =>
    if ¬ peer.status.is_applicable .LOGIN then
      dieAndClose peer (peer_id_of t d)
    else if (get_by_id keeper_peers (peer_id_of t d)).length > 0 then
      dieAndClose peer (peer_id_of t d)
    else if ¬ allow_peer_id policy (peer_id_of t d) then
      dieAndClose peer (peer_id_of t d)
    else
      ⟨{ peer with status := .AUTH, auth_salt := some freshSalt },
       [(mk_salt_packet freshSalt, peer.addr)], false⟩
  | .auth =>
    if ¬ peer.status.is_applicable .AUTH then
      dieAndClose peer (peer_id_of t d)
    else
      match peer.auth_salt with
      | none => dieAndClose peer (peer_id_of t d)
      | some salt =>
        if ¬ check_password sha policy (peer_id_of t d) salt
              (pass_hash_of d) then
          dieAndClose peer (peer_id_of t d)
        else
          let peer :=
            { peer with peer_id := (peer_id_of t d), status := .CONFIG }
          ⟨peer, [(mk_peer_packet .ack peer.peer_id, peer.addr)], false⟩
  | .config =>
    if ¬ peer.status.is_applicable .CONFIG then
      dieAndClose peer (peer_id_of t d)
    else
      let peer := { peer with status := .ACTIVE, config := extract_config d }
      ⟨peer, [(mk_peer_packet .ack peer.peer_id, peer.addr)], false⟩
  | _ => ⟨peer, [], true⟩

/-! ### Call tracker (`call.py`) -/

/-- `Call.DEAD_TIMEOUT` (seconds of silence closing an unended call). -/
def DEAD_TIMEOUT : Nat := 5

/-- `Call.CLEAN_TIMEOUT` (retention of ended calls in the active set). -/
def CLEAN_TIMEOUT : Nat := 60

/-- `Call.CLEAN_LOG_TIMEOUT` (retention in the log set). -/
def CLEAN_LOG_TIMEOUT : Nat := 21600

/-- One active voice stream. -/
structure Call where
  call_id : Nat
  src_id : Nat
  dst_id : Nat
  peer_id : Nat
  call_type : CallType
  start_time : Nat
  last_packet_time : Nat
  end_time : Option Nat
  packets : Nat
  route_to : Option (List Peer)
deriving DecidableEq

/-- `Call.__init__`. -/
def mkCall (call_id src_id dst_id peer_id : Nat) (call_type : CallType)
    (now : Nat) : Call :=
  { call_id := call_id, src_id := src_id, dst_id := dst_id,
    peer_id := peer_id, call_type := call_type, start_time := now,
    last_packet_time := now, end_time := none, packets := 0,
    route_to := none }

/-- `Call.check_timeout`. -/
def Call.check_timeout (c : Call) (timeout now : Nat) : Bool :=
  now - c.last_packet_time < timeout

/-- `Call.is_dead`: unended and silent beyond `DEAD_TIMEOUT`. -/
def Call.is_dead (c : Call) (now : Nat) : Bool :=
  c.end_time == none && ! c.check_timeout DEAD_TIMEOUT now

/-- `Call.end(by_timeout=True)` as applied by maintenance to dead
calls. -/
def Call.end_by_timeout (c : Call) : Call :=
  { c with end_time := some c.last_packet_time }

/-- `Call.to_be_cleaned`. -/
def Call.to_be_cleaned (c : Call) (now : Nat) : Bool :=
  c.end_time ≠ none && ! c.check_timeout CLEAN_TIMEOUT now

/-- `Call.to_be_cleaned_log`. -/
def Call.to_be_cleaned_log (c : Call) (now : Nat) : Bool :=
  c.end_time ≠ none && ! c.check_timeout CLEAN_LOG_TIMEOUT now

/-- `CallKeeper.by_call_id`. -/
def by_call_id (calls : List Call) (call_id : Nat) : Option Call :=
  calls.find? (fun c => c.call_id == call_id)

/-- `CallKeeper.maintain`: end dead calls by timeout, then drop ended
calls past their retention (the ending pass reaches the log set through
the shared `Call` objects). -/
def CallKeeper.maintain (calls : List Call) (now : Nat) : List Call :=
  ((calls.map (fun c => if c.is_dead now then c.end_by_timeout else c)).filter
    (fun c => ! c.to_be_cleaned now))

/-- Log-set half of `CallKeeper.maintain`. -/
def CallKeeper.maintain_log (calls_log : List Call) (now : Nat) :
    List Call :=
  ((calls_log.map
      (fun c => if c.is_dead now then c.end_by_timeout else c)).filter
    (fun c => ! c.to_be_cleaned_log now))

/-! ### Dispatcher (`dispatcher.py`) -/

/-- Python-level exceptions escaping the dispatch path. -/
inductive PyError | typeError
deriving DecidableEq

/-- Dispatcher-owned state: the peer registry and the call keeper's two
sets. -/
structure ServerState where
  peers : List Peer
  calls : List Call
  calls_log : List Call
deriving DecidableEq

/-- Empty state of a fresh dispatcher. -/
def ServerState.empty : ServerState := ⟨[], [], []⟩

/-- Outcome of one receive or dispatch step: resulting state, datagrams
sent through the transport, and the uncaught exception if one was
raised. -/
structure StepResult where
  state : ServerState
  sent : List (Bytes × Addr)
  error : Option PyError
deriving DecidableEq

/-- `Dispatcher.distribute_by_peers`: with `peers = none` fall back to the
active set, then send a copy of the packet to every target except the
originating address, with the target's own `peer_id` written into the
copy. -/
def distribute_by_peers (t : PktTag) (d : Bytes) (orig_addr : Addr)
    (keeper_peers : List Peer) (peers : Option (List Peer)) :
    List (Bytes × Addr) :=
  let targets := match peers with
    | none => get_active keeper_peers
    | some ps => ps
  targets.filterMap (fun peer =>
    if orig_addr = peer.addr then none
    else some (setBytesAt d (if t = .dmrData then 11 else
                 (pktType t).length) (u32be peer.peer_id), peer.addr))

/-- `Dispatcher.dispatch_data_packet`.  The call lookup and creation (with
UNIT-call routing resolution) happen first; the source then invokes
`call.packet_received(p)`, but `Call.packet_received` accepts no packet
argument, so the interpreter raises `TypeError` at that line on every
data packet, before the voice-terminator handling, the app hook and
`distribute_by_peers` are reached.  The mutations already performed on
the call keeper persist. -/
def dispatch_data_packet (st : ServerState) (d : Bytes) (_orig_addr : Addr)
    (now : Nat) : StepResult :=
  let call_id := DMRD.stream_id d
  let calls' :=
    match by_call_id st.calls call_id with
    | some _ => (st.calls, st.calls_log)
    | none =>
      let c0 := mkCall (DMRD.stream_id d) (DMRD.src_id d) (DMRD.dst_id d)
                  (DMRD.peer_id d) (DMRD.call_type d) now
      let c :=
        if DMRD.call_type d = CallType.UNIT then
          let peers := get_by_unit st.peers (DMRD.dst_id d)
          if peers.length > 0 then { c0 with route_to := some peers } else c0
        else c0
      (st.calls ++ [c], st.calls_log ++ [c])
  { state := { st with calls := calls'.1, calls_log := calls'.2 },
    sent := [], error := some PyError.typeError }

/-- `Dispatcher.recv_dg`: resolve or create the peer, parse through the
factory (dropping the datagram on failure), run the controller, then
dispatch data and talker-alias packets.  `freshSalt` feeds the
controller's salt generation. -/
def recv_dg (sha : Bytes → Bytes) (policy : PeerAuthPolicy)
    (st : ServerState) (data : Bytes) (addr : Addr) (freshSalt : Bytes)
    (now : Nat) : StepResult :=
  let peers :=
    match get_by_addr st.peers addr with
    | some _ => st.peers
    | none => st.peers ++ [newPeer addr now]
  let st := { st with peers := peers }
  match get_by_addr st.peers addr with
  | none => { state := st, sent := [], error := none }
  | some peer =>
    match DMRPPacketFactory.fd data with
    | none => { state := st, sent := [], error := none }
    | some (t, d) =>
      let r := process_packet sha policy st.peers peer t d freshSalt now
      let st := { st with peers := replace_by_addr st.peers addr r.peer }
      if r.cont then
        if t = .dmrData then
          let dr := dispatch_data_packet st d addr now
          { dr with sent := r.sent ++ dr.sent }
        else if t = .talkerAlias then
          { state := st,
            sent := r.sent ++
              distribute_by_peers t d addr st.peers none,
            error := none }
        else { state := st, sent := r.sent, error := none }
      else { state := st, sent := r.sent, error := none }

/-- `Dispatcher.maintain`: registry maintenance then call-keeper
maintenance. -/
def ServerState.maintain (st : ServerState) (now : Nat) : ServerState :=
  { peers := PeerKeeper.maintain st.peers now,
    calls := CallKeeper.maintain st.calls now,
    calls_log := CallKeeper.maintain_log st.calls_log now }

/-- External stimuli of the dispatcher: an inbound datagram (with the salt
the controller would draw) or a maintenance tick. -/
inductive Event
  | recv (data : Bytes) (addr : Addr) (freshSalt : Bytes)
  | maintain

/-- One dispatcher step. -/
def dmrStep (sha : Bytes → Bytes) (policy : PeerAuthPolicy)
    (st : ServerState) (e : Event) (now : Nat) : StepResult :=
  match e with
  | .recv data addr freshSalt => recv_dg sha policy st data addr freshSalt now
  | .maintain => { state := st.maintain now, sent := [], error := none }

/-- Run a sequence of timed events, threading the state. -/
def dmrRun (sha : Bytes → Bytes) (policy : PeerAuthPolicy)
    (st : ServerState) : List (Event × Nat) → ServerState
  | [] => st
  | (e, now) :: rest =>
      dmrRun sha policy (dmrStep sha policy st e now).state rest

/-! ### Invariant and run conditions for the registry claims -/

/-- The spec invariant on one peer: `peer_id` nonzero iff the handshake
passed authentication. -/
def peerInv (p : Peer) : Prop :=
  p.peer_id ≠ 0 ↔ (p.status = .CONFIG ∨ p.status = .ACTIVE)

/-- Side conditions on one event under which the invariant is preserved:
`RPTK` packets must carry a nonzero id, and `RPTL` packets must only be
processed for peers whose stored id is still zero. -/
def eventOk (st : ServerState) (e : Event) : Prop :=
  match e with
  | .maintain => True
  | .recv data addr _ =>
    match DMRPPacketFactory.fd data with
    | some (.auth, d) => peer_id_of .auth d ≠ 0
    | some (.login, _) =>
        match get_by_addr st.peers addr with
        | some p => p.peer_id = 0
        | none => True
    | _ => True

/-- The side conditions hold at every step of a run. -/
def RunOk (sha : Bytes → Bytes) (policy : PeerAuthPolicy) :
    ServerState → List (Event × Nat) → Prop
  | _, [] => True
  | st, (e, now) :: rest =>
      eventOk st e ∧
        RunOk sha policy (dmrStep sha policy st e now).state rest

/-! ### Concrete scenario inputs -/

/-- Client-side `RPTL` datagram for a given id. -/
def mk_rptl (peer_id : Nat) : Bytes := [82, 80, 84, 76] ++ u32be peer_id

/-- Client-side `RPTK` datagram for a given id and 32-byte hash. -/
def mk_rptk (peer_id : Nat) (pass_hash : Bytes) : Bytes :=
  [82, 80, 84, 75] ++ u32be peer_id ++ pass_hash

/-- Client-side `RPTC` datagram: magic plus 298 space-padded field
bytes. -/
def mk_rptc : Bytes := [82, 80, 84, 67] ++ List.replicate 298 32

/-- A stand-in hash function for concrete runs where the hash value is
irrelevant. -/
def shaStub : Bytes → Bytes := fun _ => List.replicate 32 0

/-- An ACTIVE peer used by the distribution scenarios. -/
def mkActivePeer (host peer_id : Nat) : Peer :=
  { addr := (host, host), auth_salt := none, status := .ACTIVE,
    peer_id := peer_id, connect_time := 0, active_time := 0,
    config := [], units := [] }

/-- An already-running GROUP call with stream id 5 and 7 counted
packets (scenario input for the existing-call claim). -/
def c1_call : Call :=
  { call_id := 5, src_id := 9, dst_id := 7, peer_id := 1,
    call_type := .GROUP, start_time := 100, last_packet_time := 100,
    end_time := none, packets := 7, route_to := none }

/-- State holding only the running call above. -/
def c1_state : ServerState := ⟨[mkActivePeer 1 1], [c1_call], [c1_call]⟩

/-- A DMRD data packet of the existing stream 5 (GROUP, non-terminator,
all remaining fields zero). -/
def c1_packet : Bytes :=
  [68, 77, 82, 68] ++ List.replicate 12 0 ++ [0, 0, 0, 5] ++
    List.replicate 35 0

/-- Three ACTIVE peers A, B, C for the group-broadcast scenario. -/
def c2_state : ServerState :=
  ⟨[mkActivePeer 1 1, mkActivePeer 2 2, mkActivePeer 3 3], [], []⟩

/-- A DMRD data packet from A: GROUP call, fresh stream id 0. -/
def c2_packet : Bytes := [68, 77, 82, 68] ++ List.replicate 51 0

/-- Allow-list policy for the duplicate-login scenario. -/
def c3_policy : PeerAuthPolicy := .listAuth [(123, "secret")]

/-- Registry state after the first peer's `RPTL(123)` from address
`(1, 1)`. -/
def c3_state1 : ServerState :=
  (dmrStep shaStub c3_policy ServerState.empty
    (.recv (mk_rptl 123) (1, 1) [9, 9, 9, 9]) 10).state

/-- Outcome of the second peer's `RPTL(123)` from address `(2, 2)`. -/
def c3_result2 : StepResult :=
  recv_dg shaStub c3_policy c3_state1 (mk_rptl 123) (2, 2) [8, 8, 8, 8] 11

/-- Run driving one peer to CONFIG status with `peer_id = 0`:
`RPTL(123)` then `RPTK(0, …)` under the allow-all policy. -/
def c4_runA : List (Event × Nat) :=
  [(.recv (mk_rptl 123) (1, 1) [1, 2, 3, 4], 10),
   (.recv (mk_rptk 0 (List.replicate 32 7)) (1, 1) [], 11)]

/-- Run driving one peer to AUTH status with `peer_id = 123`: a full
handshake followed by a re-login with a different id. -/
def c4_runB : List (Event × Nat) :=
  [(.recv (mk_rptl 123) (1, 1) [1, 2, 3, 4], 10),
   (.recv (mk_rptk 123 (List.replicate 32 7)) (1, 1) [], 11),
   (.recv mk_rptc (1, 1) [], 12),
   (.recv (mk_rptl 124) (1, 1) [5, 6, 7, 8], 13)]

/-- The tag the factory assigns to a wellformed serialized packet: every
type re-parses as itself except the salt packet, whose `RPTACK` magic is
claimed first by the ack class registered ahead of it. -/
def parsedOf (t : PktTag) : PktTag := if t = .salt then .ack else t

/-- An ACTIVE peer whose unit table holds unit 42 (unit-call routing
scenario). -/
def c6_peer : Peer :=
  { addr := (1, 1), auth_salt := none, status := .ACTIVE, peer_id := 1,
    connect_time := 0, active_time := 0, config := [], units := [(42, 0)] }

/-- A running call with stream id 77 (immutability part of the routing
scenario). -/
def c6_call : Call :=
  { call_id := 77, src_id := 9, dst_id := 7, peer_id := 1,
    call_type := .GROUP, start_time := 100, last_packet_time := 100,
    end_time := none, packets := 3, route_to := none }

/-- State for the unit-call routing scenario. -/
def c6_state : ServerState :=
  ⟨[c6_peer, mkActivePeer 2 2], [c6_call], [c6_call]⟩

/-- A DMRD UNIT-call packet for destination 42, fresh stream id 9. -/
def c6_packet : Bytes :=
  [68, 77, 82, 68] ++ List.replicate 4 0 ++ [0, 0, 42] ++ [0, 0, 0, 0] ++
    [64] ++ [0, 0, 0, 9] ++ List.replicate 35 0

/-- A later DMRD packet of the existing stream 77. -/
def c6_packet2 : Bytes :=
  [68, 77, 82, 68] ++ List.replicate 12 0 ++ [0, 0, 0, 77] ++
    List.replicate 35 0

/-- A condition-respecting run: a full handshake with nonzero ids and no
re-login (witness input for the amended invariant). -/
def c4_runC : List (Event × Nat) :=
  [(.recv (mk_rptl 123) (1, 1) [1, 2, 3, 4], 10),
   (.recv (mk_rptk 123 (List.replicate 32 7)) (1, 1) [], 11),
   (.recv mk_rptc (1, 1) [], 12),
   (.maintain, 20)]

/-- Handshake scenario, peer after `RPTL(123)`: AUTH with the salt
stored. -/
def c5_peer1 (s : Bytes) : Peer :=
  { addr := (1, 1), auth_salt := some s, status := .AUTH, peer_id := 0,
    connect_time := 10, active_time := 10, config := [], units := [] }

/-- Handshake scenario, peer after a successful `RPTK`: CONFIG with the
id stored. -/
def c5_peer2 (s : Bytes) : Peer :=
  { c5_peer1 s with peer_id := 123, status := .CONFIG }

/-- Handshake scenario, peer after `RPTC`: ACTIVE with the configuration
stored. -/
def c5_peer3 (s : Bytes) : Peer :=
  { c5_peer2 s with status := .ACTIVE, config := extract_config mk_rptc }

/-! ## Theorems -/

/-! ### Shared helper lemmas -/

theorem u32be_length (v : Nat) : (u32be v).length = 4 := rfl

theorem beVal_u32be (v : Nat) (h : v < 4294967296) :
    beVal (u32be v) = v := by
  simp only [u32be, beVal, List.foldl]
  omega

/-- The factory parses a client `RPTL` datagram as a login packet. -/
theorem fd_mk_rptl (id : Nat) :
    DMRPPacketFactory.fd (mk_rptl id) = some (.login, mk_rptl id) := by
  have h4 : (u32be id).length = 4 := rfl
  simp [DMRPPacketFactory.fd, factoryOrder, List.find?, detect_by_data,
        pktSize, pktType, mk_rptl, bytesStartsWith, h4]

/-- `peer_id` read back from a client `RPTL` datagram. -/
theorem peer_id_of_mk_rptl (id : Nat) (h : id < 4294967296) :
    peer_id_of .login (mk_rptl id) = id := by
  have : slice (mk_rptl id) 4 4 = u32be id := by
    simp [mk_rptl, slice, u32be]
  simp [peer_id_of, fieldInt, this, beVal_u32be id h, pktType]

/-- A peer list with no entry for an address keeps every member under
`replace_by_addr`, which only appends-replaces the fresh entry. -/
theorem replace_by_addr_append (peers : List Peer) (addr : Addr)
    (p q : Peer) (hp : p.addr = addr)
    (hfresh : get_by_addr peers addr = none) :
    replace_by_addr (peers ++ [p]) addr q = peers ++ [q] := by
  unfold replace_by_addr
  rw [List.map_append]
  have h1 : peers.map (fun r => if r.addr = addr then q else r) = peers := by
    have := List.find?_eq_none.mp hfresh
    calc peers.map (fun r => if r.addr = addr then q else r)
        = peers.map id := by
          apply List.map_congr_left
          intro a ha
          have : ¬ (a.addr == addr) = true := this a ha
          simp only [beq_iff_eq] at this
          simp [this]
      _ = peers := List.map_id peers
  rw [h1]
  simp [hp]

/-- Appending a matching fresh peer makes the address lookup find it. -/
theorem get_by_addr_append (peers : List Peer) (addr : Addr) (p : Peer)
    (hp : p.addr = addr) (hfresh : get_by_addr peers addr = none) :
    get_by_addr (peers ++ [p]) addr = some p := by
  unfold get_by_addr at hfresh ⊢
  rw [List.find?_append, hfresh]
  simp [List.find?, hp]

/-- C3 amended: duplicate-login rejection triggers only against a stored
`peer_id`.  Once some existing peer has `peer_id = id` stored (which
happens at `RPTK` success, i.e. status CONFIG or ACTIVE), an `RPTL(id)`
from a fresh distinct address is rejected: the new peer is marked DEAD
immediately and receives `MSTCL` carrying the id, while the registry
keeps every prior peer, including the holder of the id, unchanged. -/
theorem claim_C3_amended (sha : Bytes → Bytes) (policy : PeerAuthPolicy)
    (st : ServerState) (id : Nat) (addr2 : Addr) (freshSalt : Bytes)
    (now : Nat) (p1 : Peer)
    (hid32 : id < 4294967296)
    (hp1 : p1 ∈ st.peers) (hpid : p1.peer_id = id)
    (hfresh : get_by_addr st.peers addr2 = none) :
    (recv_dg sha policy st (mk_rptl id) addr2 freshSalt now).state.peers
      = st.peers ++ [(newPeer addr2 now).die] ∧
    ((newPeer addr2 now).die).status = Status.DEAD ∧
    ((newPeer addr2 now).die).peer_id = 0 ∧
    (recv_dg sha policy st (mk_rptl id) addr2 freshSalt now).sent =
      [(mk_peer_packet .masterClose id, addr2)] := by
  have hnp : (newPeer addr2 now).addr = addr2 := rfl
  have hfind := get_by_addr_append st.peers addr2 (newPeer addr2 now) hnp
    hfresh
  have hdup : (get_by_id (st.peers ++ [newPeer addr2 now]) id).length > 0 := by
    have hmem : p1 ∈ get_by_id (st.peers ++ [newPeer addr2 now]) id := by
      apply List.mem_filter.mpr
      exact ⟨List.mem_append_left _ hp1, by simp [hpid]⟩
    exact List.length_pos.mpr (List.ne_nil_of_mem hmem)
  have hstat : (newPeer addr2 now).status = Status.LOGIN := rfl
  have hproc : process_packet sha policy (st.peers ++ [newPeer addr2 now])
      (newPeer addr2 now) .login (mk_rptl id) freshSalt now =
      dieAndClose (newPeer addr2 now) id := by
    unfold process_packet
    simp only [peer_id_of_mk_rptl id hid32, hstat]
    simp [Status.is_applicable, hdup]
  have hclose : dieAndClose (newPeer addr2 now) id =
      ⟨(newPeer addr2 now).die,
       [(mk_peer_packet .masterClose id, addr2)], false⟩ := by
    unfold dieAndClose send_close_pkt
    rcases Nat.eq_zero_or_pos id with h0 | h0
    · subst h0; simp [Peer.die, newPeer]
    · simp [Peer.die, newPeer, Nat.pos_iff_ne_zero.mp h0]
  have hrepl := replace_by_addr_append st.peers addr2 (newPeer addr2 now)
    ((newPeer addr2 now).die) hnp hfresh
  unfold recv_dg
  rw [hfresh]
  simp only [fd_mk_rptl id, hfind, hproc, hclose]
  refine ⟨?_, rfl, rfl, ?_⟩
  · simpa using hrepl
  · simp

/-- C1: the claim says an existing call's `last_packet_time` advances, its
packet counter increments, and distribution is then reached.  On the
code, the packet of stream 5 for the already-existing call leaves the
call keeper exactly as it was, sends nothing, and the dispatch raises
`TypeError`, because `Call.packet_received` takes no packet argument
while `dispatch_data_packet` passes one. -/
theorem claim_C1_dispatch_typeerror :
    dispatch_data_packet c1_state c1_packet (1, 1) 200 =
      ⟨c1_state, [], some PyError.typeError⟩ := by
  decide

/-- C2: the claim says that with ACTIVE peers A, B, C, a fresh GROUP DMRD
from A is delivered once to B and once to C.  On the code, the receive
path sends nothing at all and escapes with `TypeError` (raised by the
`call.packet_received(p)` call before distribution); the new call is
still registered. -/
theorem claim_C2_group_broadcast_typeerror :
    (recv_dg shaStub PeerAuthPolicy.allowAll c2_state c2_packet (1, 1)
        [] 50).sent = [] ∧
    (recv_dg shaStub PeerAuthPolicy.allowAll c2_state c2_packet (1, 1)
        [] 50).error = some PyError.typeError ∧
    (recv_dg shaStub PeerAuthPolicy.allowAll c2_state c2_packet (1, 1)
        [] 50).state.calls.length = 1 := by
  decide

/-- C3 counterexample: after a first peer reaches AUTH with `RPTL(123)`,
a second peer at a distinct address sending `RPTL(123)` is NOT rejected:
it also reaches AUTH and receives the salt packet, not `MSTCL`, because
the duplicate check looks at stored `peer_id` values and an AUTH peer
still stores 0. -/
theorem claim_C3_counterexample :
    (get_by_addr c3_result2.state.peers (2, 2)).map Peer.status =
      some Status.AUTH ∧
    c3_result2.sent = [(mk_salt_packet [8, 8, 8, 8], (2, 2))] ∧
    mk_salt_packet [8, 8, 8, 8] ≠ mk_peer_packet .masterClose 123 ∧
    (get_by_addr c3_state1.peers (1, 1)).map Peer.status =
      some Status.AUTH := by
  decide

set_option maxRecDepth 8192 in
/-- C4 counterexample: the invariant "peer_id nonzero iff status is
CONFIG or ACTIVE" fails in both directions on reachable states.  Under
the allow-all policy, `RPTL(123)` then `RPTK(0, …)` leaves the peer in
CONFIG with `peer_id = 0`; and a full handshake as id 123 followed by a
re-login `RPTL(124)` leaves the peer in AUTH with `peer_id = 123`. -/
theorem claim_C4_counterexample :
    ((dmrRun shaStub .allowAll .empty c4_runA).peers.map
        (fun p => (p.status, p.peer_id))) = [(Status.CONFIG, 0)] ∧
    ((dmrRun shaStub .allowAll .empty c4_runB).peers.map
        (fun p => (p.status, p.peer_id))) = [(Status.AUTH, 123)] := by
  decide

/-- Witness for the amended duplicate-login theorem: a stored id 123 on an
ACTIVE peer makes a second `RPTL(123)` from address `(2, 2)` die with
`MSTCL(123)`. -/
theorem claim_C3_amended_witness :
    (recv_dg shaStub c3_policy ⟨[mkActivePeer 1 123], [], []⟩ (mk_rptl 123)
        (2, 2) [7, 7, 7, 7] 20).state.peers =
      [mkActivePeer 1 123] ++ [(newPeer (2, 2) 20).die] ∧
    ((newPeer (2, 2) 20).die).status = Status.DEAD ∧
    ((newPeer (2, 2) 20).die).peer_id = 0 ∧
    (recv_dg shaStub c3_policy ⟨[mkActivePeer 1 123], [], []⟩ (mk_rptl 123)
        (2, 2) [7, 7, 7, 7] 20).sent =
      [(mk_peer_packet .masterClose 123, (2, 2))] :=
  claim_C3_amended shaStub c3_policy _ 123 (2, 2) [7, 7, 7, 7] 20
    (mkActivePeer 1 123) (by decide) (by decide) (by decide) (by decide)

/-- Prefix search skips a list in which nothing matches. -/
theorem find?_append_none {α : Type} (p : α → Bool) (l1 l2 : List α)
    (h : l1.find? p = none) : (l1 ++ l2).find? p = l2.find? p := by
  rw [List.find?_append, h, Option.none_or]

/-- C6: when the first packet of a new stream is a UNIT call, the created
call's `route_to` is the (nonempty) set of peers whose unit table holds
the destination, and stays the broadcast sentinel `none` otherwise;
distribution with the sentinel is exactly distribution to the ACTIVE
peers; and a packet of an already-known stream leaves the call set (and
hence every `route_to`) untouched. -/
theorem claim_C6_route_to (st : ServerState) (d d2 : Bytes)
    (a a2 : Addr) (n n2 : Nat) (c : Call)
    (h1 : by_call_id st.calls (DMRD.stream_id d) = none)
    (h2 : DMRD.call_type d = CallType.UNIT)
    (h3 : by_call_id st.calls (DMRD.stream_id d2) = some c) :
    ((by_call_id (dispatch_data_packet st d a n).state.calls
        (DMRD.stream_id d)).map Call.route_to) =
      some (if (get_by_unit st.peers (DMRD.dst_id d)).length > 0
            then some (get_by_unit st.peers (DMRD.dst_id d)) else none) ∧
    (∀ t dd aa, distribute_by_peers t dd aa st.peers none =
       distribute_by_peers t dd aa st.peers
         (some (get_active st.peers))) ∧
    (dispatch_data_packet st d2 a2 n2).state.calls = st.calls := by
  refine ⟨?_, fun t dd aa => rfl, ?_⟩
  · unfold dispatch_data_packet
    simp only [h1, h2]
    unfold by_call_id at h1
    by_cases hu : (get_by_unit st.peers (DMRD.dst_id d)).length > 0
    · simp only [if_pos hu, reduceIte]
      unfold by_call_id
      rw [find?_append_none _ _ _ h1]
      simp [mkCall]
    · simp only [if_neg hu, reduceIte]
      unfold by_call_id
      rw [find?_append_none _ _ _ h1]
      simp [mkCall]
  · unfold dispatch_data_packet
    simp only [h3]

/-- Witness for the routing theorem: destination 42 is known only to the
unit table of `c6_peer`, so the created call routes to exactly that
peer; stream 77 already exists, so its packet changes no call. -/
theorem claim_C6_route_to_witness :
    ((by_call_id (dispatch_data_packet c6_state c6_packet (1, 1)
        200).state.calls (DMRD.stream_id c6_packet)).map Call.route_to) =
      some (if (get_by_unit c6_state.peers
                  (DMRD.dst_id c6_packet)).length > 0
            then some (get_by_unit c6_state.peers (DMRD.dst_id c6_packet))
            else none) ∧
    (∀ t dd aa, distribute_by_peers t dd aa c6_state.peers none =
       distribute_by_peers t dd aa c6_state.peers
         (some (get_active c6_state.peers))) ∧
    (dispatch_data_packet c6_state c6_packet2 (2, 2) 201).state.calls =
      c6_state.calls :=
  claim_C6_route_to c6_state c6_packet c6_packet2 (1, 1) (2, 2) 200 201
    c6_call (by decide) (by decide) (by decide)

/-- C10: any datagram from an unseen source address first inserts a fresh
LOGIN peer into the registry; when the factory then rejects the
datagram, the receive path stops with no reply, no exception and no
other state change, so the peer set still grew by that one entry. -/
theorem claim_C10_unknown_datagram_peer (sha : Bytes → Bytes)
    (policy : PeerAuthPolicy) (st : ServerState) (data : Bytes)
    (addr : Addr) (freshSalt : Bytes) (now : Nat)
    (hfresh : get_by_addr st.peers addr = none)
    (hparse : DMRPPacketFactory.fd data = none) :
    recv_dg sha policy st data addr freshSalt now =
      ⟨⟨st.peers ++ [newPeer addr now], st.calls, st.calls_log⟩, [],
       none⟩ ∧
    (newPeer addr now).status = Status.LOGIN := by
  refine ⟨?_, rfl⟩
  have hfind := get_by_addr_append st.peers addr (newPeer addr now) rfl
    hfresh
  unfold recv_dg
  rw [hfresh]
  simp [hfind, hparse]

/-- Witness for the unseen-address theorem: a three-byte garbage datagram
from a fresh address grows the empty registry by one LOGIN peer. -/
theorem claim_C10_unknown_datagram_peer_witness :
    recv_dg shaStub PeerAuthPolicy.denyAll ServerState.empty [1, 2, 3]
        (5, 5) [] 30 =
      ⟨⟨[] ++ [newPeer (5, 5) 30], [], []⟩, [], none⟩ ∧
    (newPeer (5, 5) 30).status = Status.LOGIN :=
  claim_C10_unknown_datagram_peer shaStub PeerAuthPolicy.denyAll
    ServerState.empty [1, 2, 3] (5, 5) [] 30 (by decide) (by decide)

/-- C9: reading the voice type is total; any bits byte whose low 6 bits
hit none of the nine defined codes yields `NONE`, and such a packet is
never a voice terminator. -/
theorem claim_C9_voice_type_total (d : Bytes)
    (h : (DMRD.bits d &&& 63) ∉
      ([0, 33, 16, 1, 2, 3, 4, 5, 34] : List Nat)) :
    DMRD.get_voice_type d = VoiceType.NONE ∧ ¬ DMRD.is_voice_term d := by
  simp only [List.mem_cons, List.not_mem_nil, or_false, not_or] at h
  obtain ⟨h0, h33, h16, h1, h2, h3, h4, h5, h34⟩ := h
  have hvt : DMRD.get_voice_type d = VoiceType.NONE := by
    unfold DMRD.get_voice_type VoiceType.from_value
    simp [h0, h33, h16, h1, h2, h3, h4, h5, h34]
  exact ⟨hvt, by simp [DMRD.is_voice_term, hvt]⟩

/-- Witness for voice-type totality: a DMRD buffer whose bits byte is 6
(an undefined voice code) reads as `NONE` and is no terminator. -/
theorem claim_C9_voice_type_total_witness :
    (DMRD.bits (List.replicate 15 0 ++ [6]) &&& 63) ∉
      ([0, 33, 16, 1, 2, 3, 4, 5, 34] : List Nat) ∧
    (DMRD.get_voice_type (List.replicate 15 0 ++ [6]) = VoiceType.NONE ∧
     ¬ DMRD.is_voice_term (List.replicate 15 0 ++ [6])) :=
  ⟨by decide, claim_C9_voice_type_total _ (by decide)⟩

/-! ### Codec round-trip (C7) -/

/-- Every declared field lies beyond the magic and inside the declared
packet size. -/
theorem pktFields_bounds (t : PktTag) :
    ∀ f ∈ pktFields t, (pktType t).length ≤ f.1 ∧
      f.1 + f.2 ≤ pktSize t := by
  cases t <;> decide

/-- The magic never exceeds the declared size. -/
theorem magic_le_size (t : PktTag) : (pktType t).length ≤ pktSize t := by
  cases t <;> decide

/-- `create` produces a wellformed buffer. -/
theorem wf_createPacket (t : PktTag) : wfPacket t (createPacket t) := by
  constructor
  · simp [createPacket, Nat.add_sub_cancel' (magic_le_size t)]
  · exact ⟨_, rfl⟩

/-- In-range writes preserve the buffer length. -/
theorem setBytesAt_length (d : Bytes) (off : Nat) (v : Bytes)
    (h : off + v.length ≤ d.length) :
    (setBytesAt d off v).length = d.length := by
  simp only [setBytesAt, List.length_append, List.length_take,
    List.length_drop]
  omega

/-- A valid field write preserves wellformedness. -/
theorem wf_applyWrite (t : PktTag) (d : Bytes) (w : FieldWrite)
    (hd : wfPacket t d) (hw : validWrite t w) :
    wfPacket t (applyWrite d w) := by
  obtain ⟨hlen, rest, rfl⟩ := hd
  obtain ⟨hf, hvl, _⟩ := hw
  obtain ⟨hoff, hend⟩ := pktFields_bounds t _ hf
  constructor
  · rw [applyWrite, setBytesAt_length]
    · exact hlen
    · omega
  · simp only at hoff hend
    obtain ⟨k, hk⟩ := Nat.exists_eq_add_of_le hoff
    refine ⟨List.take k rest ++ w.val ++
      List.drop (w.off + w.val.length) (pktType t ++ rest), ?_⟩
    have htake : List.take w.off (pktType t ++ rest) =
        pktType t ++ List.take k rest := by
      rw [hk]; exact List.take_append k
    simp only [applyWrite, setBytesAt, htake, List.append_assoc]

/-- A chain of valid field writes keeps a buffer wellformed. -/
theorem wf_foldl_writes (t : PktTag) (ws : List FieldWrite) :
    ∀ d, wfPacket t d → (∀ w ∈ ws, validWrite t w) →
      wfPacket t (ws.foldl applyWrite d) := by
  induction ws with
  | nil => exact fun d hd _ => hd
  | cons w ws ih =>
      intro d hd hws
      exact ih _ (wf_applyWrite t d w hd (hws w (by simp)))
        (fun w' hw' => hws w' (by simp [hw']))

/-- Every buffer reachable by valid field assignments is wellformed. -/
theorem wf_validPacketData (t : PktTag) (d : Bytes)
    (h : validPacketData t d) : wfPacket t d := by
  obtain ⟨ws, hws, rfl⟩ := h
  exact wf_foldl_writes t ws _ (wf_createPacket t) hws

/-- What the factory makes of a wellformed serialized packet: the bytes
are kept and the type is recovered, except that a salt packet parses as
an ack. -/
theorem fd_wfPacket (t : PktTag) (d : Bytes) (h : wfPacket t d) :
    DMRPPacketFactory.fd d = some (parsedOf t, d) := by
  obtain ⟨hlen, rest, rfl⟩ := h
  have hr : rest.length = pktSize t - (pktType t).length := by
    rw [List.length_append] at hlen
    omega
  cases t <;>
    (simp only [pktType, pktSize, List.length_cons, List.length_nil] at hr
     simp [DMRPPacketFactory.fd, factoryOrder, detect_by_data, pktSize,
       pktType, bytesStartsWith, parsedOf, List.find?, hr])

/-- C7 counterexample: the serialized salt packet (a valid field
assignment of the salt type) has the declared length but parses back as
the ack type, so `parse(serialize(p)) = p` fails for the salt type at
the level of packet types. -/
theorem claim_C7_counterexample :
    validPacketData .salt (createPacket .salt) ∧
    DMRPPacketFactory.fd (createPacket .salt) =
      some (.ack, createPacket .salt) ∧
    PktTag.ack ≠ PktTag.salt :=
  ⟨⟨[], by simp, rfl⟩, by decide, by decide⟩

/-- C7 amended: for every packet type and every valid field assignment,
the serialized buffer has exactly the declared `PKT_SIZE` and feeds back
through the factory to the identical bytes with the original type —
except the salt type, which shares the `RPTACK` magic with the ack type
registered before it and therefore always re-parses as an ack; in
particular a 10-byte `RPTACK` buffer never parses as the salt type. -/
theorem claim_C7_roundtrip_amended (t : PktTag) (d : Bytes)
    (h : validPacketData t d) :
    d.length = pktSize t ∧
    DMRPPacketFactory.fd d = some (parsedOf t, d) ∧
    (∀ u : PktTag, u ≠ .salt → parsedOf u = u) ∧
    parsedOf .salt = .ack := by
  have hwf := wf_validPacketData t d h
  exact ⟨hwf.1, fd_wfPacket t d hwf,
    fun u hu => by simp [parsedOf, hu], rfl⟩

/-- Witness for the amended round-trip theorem: a freshly created login
packet with its `peer_id` written re-parses as a login packet with the
same bytes. -/
theorem claim_C7_roundtrip_amended_witness :
    validPacketData .login
      (applyWrite (createPacket .login) ⟨4, 4, [0, 0, 0, 123]⟩) ∧
    ((applyWrite (createPacket .login) ⟨4, 4, [0, 0, 0, 123]⟩).length =
        pktSize .login ∧
     DMRPPacketFactory.fd
         (applyWrite (createPacket .login) ⟨4, 4, [0, 0, 0, 123]⟩) =
       some (parsedOf .login,
         applyWrite (createPacket .login) ⟨4, 4, [0, 0, 0, 123]⟩) ∧
     (∀ u : PktTag, u ≠ .salt → parsedOf u = u) ∧
     parsedOf .salt = .ack) :=
  ⟨⟨[⟨4, 4, [0, 0, 0, 123]⟩], by simp [validWrite]; decide, rfl⟩,
   claim_C7_roundtrip_amended .login _
     ⟨[⟨4, 4, [0, 0, 0, 123]⟩], by simp [validWrite]; decide, rfl⟩⟩

/-! ### Embedded-LC assembler (C8) -/

theorem bytesToBits_length (bs : Bytes) :
    (bytesToBits bs).length = 8 * bs.length := by
  induction bs with
  | nil => rfl
  | cons b bs ih =>
      simp only [bytesToBits, List.map_cons, List.flatten_cons,
        List.length_append] at ih ⊢
      rw [ih]
      simp [byteBits]
      ring

theorem bitsToBytes_length_le : ∀ (n : Nat) (l : List Bool),
    l.length ≤ n → (bitsToBytes l).length = (l.length + 7) / 8 := by
  intro n
  induction n with
  | zero =>
      intro l hl
      have h0 : l = [] := List.eq_nil_of_length_eq_zero (Nat.le_zero.mp hl)
      subst h0
      rw [bitsToBytes]
      simp
  | succ n ih =>
      intro l hl
      by_cases h : l = []
      · subst h
        rw [bitsToBytes]
        simp
      · rw [bitsToBytes]
        have h1 : 1 ≤ l.length := List.length_pos.mpr h
        have hd : (l.drop 8).length = l.length - 8 := List.length_drop 8 l
        have hrec := ih (l.drop 8) (by omega)
        simp only [h, dite_false, List.length_cons, hrec, hd]
        omega

theorem bitsToBytes_length (l : List Bool) :
    (bitsToBytes l).length = (l.length + 7) / 8 :=
  bitsToBytes_length_le l.length l le_rfl

/-- The embedded-LC contribution of a burst of a full-size DMRD packet is
exactly 4 bytes. -/
theorem emb_lc_length (d : Bytes) (frag : Bytes) (hd : d.length = 55)
    (h : DMRD.get_emb_lc d = some frag) : frag.length = 4 := by
  have h33 : (DMRD.dmr_data d).length = 33 := by
    simp [DMRD.dmr_data, slice, List.length_take, List.length_drop, hd]
  have hbits : (bytesToBits (DMRD.dmr_data d)).length = 264 := by
    rw [bytesToBits_length, h33]
  have hlen : (l2_get_emb_lc (DMRD.dmr_data d)).length = 4 := by
    unfold l2_get_emb_lc
    rw [bitsToBytes_length]
    simp [List.length_take, List.length_drop, hbits]
  have hfrag : frag = l2_get_emb_lc (DMRD.dmr_data d) := by
    unfold DMRD.get_emb_lc at h
    rcases hvt : DMRD.get_voice_type d <;> rw [hvt] at h <;>
      simp at h <;> exact h.symm
  rw [hfrag]
  exact hlen

/-- An embedded-LC-contributing voice type always yields a fragment. -/
theorem get_emb_lc_fragment (d : Bytes) (n : Nat)
    (h : VTYPE_N_MAP (DMRD.get_voice_type d) = some n) :
    DMRD.get_emb_lc d = some (l2_get_emb_lc (DMRD.dmr_data d)) := by
  unfold DMRD.get_emb_lc
  rcases hvt : DMRD.get_voice_type d <;> rw [hvt] at h <;>
    simp [VTYPE_N_MAP] at h

/-- `process_voicedata` on a non-contributing voice type: untouched state,
no error, not ready. -/
theorem process_voicedata_nonfragment (a : EmbLCAssembler) (d : Bytes)
    (h : VTYPE_N_MAP (DMRD.get_voice_type d) = none) :
    process_voicedata a d = (a, none, false) := by
  unfold process_voicedata
  rw [h]

/-- `process_voicedata` on a contributing voice type, with the embedded-LC
match resolved. -/
theorem process_voicedata_fragment (a : EmbLCAssembler) (d : Bytes)
    (n : Nat) (h : VTYPE_N_MAP (DMRD.get_voice_type d) = some n) :
    process_voicedata a d =
      if n > 0 ∧ DMRD.vseq d ≠ (a.vseq + 1) &&& 255 then
        (EmbLCAssembler.init, some .wrongVseq, false)
      else if a.lcs.length ≠ n then
        (EmbLCAssembler.init, some .wrongBurstN, false)
      else (⟨a.lcs ++ [l2_get_emb_lc (DMRD.dmr_data d)], DMRD.vseq d⟩,
            none, n == 3) := by
  have hemb := get_emb_lc_fragment d n h
  unfold process_voicedata
  rw [h, hemb]

/-- Only `BURST_E` maps to fragment index 3. -/
theorem vtype_three (vt : VoiceType) (n : Nat)
    (h : VTYPE_N_MAP vt = some n) : vt = VoiceType.BURST_E ↔ n = 3 := by
  cases vt <;> simp [VTYPE_N_MAP] at h <;> simp_all <;> omega

/-- C8: the assembler signals ready exactly on a `BURST_E` accepted as the
fourth fragment (three already stored, vseq advancing by one mod 256);
every raised assembler error resets the state to empty; a fragment is
only ever stored when its burst index equals the stored count, with no
error; after ready, `decode` returns the external FEC decoding of the
four concatenated fragments; each fragment of a full-size packet is 4
bytes; a wrong vseq on a contributing burst raises `wrongVseq` and
resets the state to empty; a wrong burst index raises `wrongBurstN` and
resets the state to empty; and the embedded-LC data of a contributing
burst is never missing, so the `noData` error branch is unreachable. -/
theorem claim_C8_emblc_assembler (decode_emblc : Bytes → Bytes) :
    (∀ a d, (process_voicedata a d).2.2 = true ↔
       (DMRD.get_voice_type d = VoiceType.BURST_E ∧ a.lcs.length = 3 ∧
        DMRD.vseq d = (a.vseq + 1) &&& 255)) ∧
    (∀ a d e, (process_voicedata a d).2.1 = some e →
       (process_voicedata a d).1 = EmbLCAssembler.init) ∧
    (∀ a d, (process_voicedata a d).1.lcs.length = a.lcs.length + 1 →
       (VTYPE_N_MAP (DMRD.get_voice_type d) = some a.lcs.length ∧
        (process_voicedata a d).2.1 = none)) ∧
    (∀ a d, (process_voicedata a d).2.2 = true →
       ((process_voicedata a d).1.lcs.length = 4 ∧
        EmbLCAssembler.decode decode_emblc (process_voicedata a d).1 =
          some (decode_emblc (process_voicedata a d).1.lcs.flatten))) ∧
    (∀ d frag, d.length = 55 → DMRD.get_emb_lc d = some frag →
       frag.length = 4) ∧
    (∀ a d n, VTYPE_N_MAP (DMRD.get_voice_type d) = some n → 0 < n →
       DMRD.vseq d ≠ (a.vseq + 1) &&& 255 →
       process_voicedata a d =
         (EmbLCAssembler.init, some AsmError.wrongVseq, false)) ∧
    (∀ a d n, VTYPE_N_MAP (DMRD.get_voice_type d) = some n →
       (0 < n → DMRD.vseq d = (a.vseq + 1) &&& 255) →
       a.lcs.length ≠ n →
       process_voicedata a d =
         (EmbLCAssembler.init, some AsmError.wrongBurstN, false)) ∧
    (∀ d n, VTYPE_N_MAP (DMRD.get_voice_type d) = some n →
       DMRD.get_emb_lc d ≠ none) := by
  refine ⟨?_, ?_, ?_, ?_, fun d frag hd h => emb_lc_length d frag hd h,
    fun a d n hmap hn hvs => by
      rw [process_voicedata_fragment a d n hmap, if_pos ⟨hn, hvs⟩],
    fun a d n hmap hvs hlen => by
      rw [process_voicedata_fragment a d n hmap,
        if_neg (fun hc => hc.2 (hvs hc.1)), if_pos hlen],
    fun d n h => by rw [get_emb_lc_fragment d n h]; simp⟩
  · intro a d
    rcases hmap : VTYPE_N_MAP (DMRD.get_voice_type d) with _ | n
    · rw [process_voicedata_nonfragment a d hmap]
      have hne : DMRD.get_voice_type d ≠ VoiceType.BURST_E := by
        intro he
        rw [he] at hmap
        simp [VTYPE_N_MAP] at hmap
      simp [hne]
    · rw [process_voicedata_fragment a d n hmap]
      rw [vtype_three _ n hmap]
      split_ifs with h1 h2
      · simp only [Bool.false_eq_true, false_iff, not_and]
        intro hn3 hlen hvs
        exact absurd hvs (by rw [hn3] at h1; exact h1.2)
      · simp only [Bool.false_eq_true, false_iff, not_and]
        intro hn3 hlen
        exact absurd hlen (by rw [hn3] at h2; exact fun he => h2 he)
      · simp only [beq_iff_eq]
        push_neg at h1 h2
        constructor
        · intro hn3
          refine ⟨hn3, by omega, ?_⟩
          rcases Nat.eq_zero_or_pos n with h0 | hpos
          · omega
          · exact h1 hpos
        · exact fun h => h.1
  · intro a d e h
    rcases hmap : VTYPE_N_MAP (DMRD.get_voice_type d) with _ | n
    · rw [process_voicedata_nonfragment a d hmap] at h
      simp at h
    · rw [process_voicedata_fragment a d n hmap] at h ⊢
      by_cases h1 : n > 0 ∧ DMRD.vseq d ≠ (a.vseq + 1) &&& 255
      · simp [h1]
      · by_cases h2 : a.lcs.length ≠ n
        · simp [h1, h2]
        · simp [h1, h2] at h
  · intro a d h
    rcases hmap : VTYPE_N_MAP (DMRD.get_voice_type d) with _ | n
    · rw [process_voicedata_nonfragment a d hmap] at h
      simp at h
    · rw [process_voicedata_fragment a d n hmap] at h ⊢
      by_cases h1 : n > 0 ∧ DMRD.vseq d ≠ (a.vseq + 1) &&& 255
      · rw [if_pos h1] at h
        simp [EmbLCAssembler.init] at h
      · by_cases h2 : a.lcs.length ≠ n
        · rw [if_neg h1, if_pos h2] at h
          simp [EmbLCAssembler.init] at h
        · push_neg at h2
          rw [← h2] at hmap
          simp [h1, h2, hmap]
  · intro a d h
    rcases hmap : VTYPE_N_MAP (DMRD.get_voice_type d) with _ | n
    · rw [process_voicedata_nonfragment a d hmap] at h
      simp at h
    · rw [process_voicedata_fragment a d n hmap] at h ⊢
      by_cases h1 : n > 0 ∧ DMRD.vseq d ≠ (a.vseq + 1) &&& 255
      · rw [if_pos h1] at h
        simp at h
      · by_cases h2 : a.lcs.length ≠ n
        · rw [if_neg h1, if_pos h2] at h
          simp at h
        · rw [if_neg h1, if_neg h2] at h
          simp only [beq_iff_eq] at h
          push_neg at h1 h2
          have hv : DMRD.vseq d = (a.vseq + 1) &&& 255 := h1 (by omega)
          rw [if_neg (by push_neg; exact fun _ => hv), if_neg (by omega)]
          refine ⟨?_, ?_⟩
          · simp [h2, h]
          · unfold EmbLCAssembler.decode
            simp [h2, h]

/-! ### Handshake (C5) -/

/-- The factory parses a client `RPTK` datagram with a 32-byte hash as an
auth packet. -/
theorem fd_mk_rptk (id : Nat) (h : Bytes) (hh : h.length = 32) :
    DMRPPacketFactory.fd (mk_rptk id h) = some (.auth, mk_rptk id h) := by
  have h4 : (u32be id).length = 4 := rfl
  simp [DMRPPacketFactory.fd, factoryOrder, List.find?, detect_by_data,
        pktSize, pktType, mk_rptk, bytesStartsWith, h4, hh]

/-- The `pass_hash` field reads back the hash of a client `RPTK`
datagram. -/
theorem pass_hash_of_mk_rptk (id : Nat) (h : Bytes)
    (hh : h.length = 32) : pass_hash_of (mk_rptk id h) = h := by
  have hdrop : List.drop 8 (mk_rptk id h) = h := by
    simp [mk_rptk, u32be]
  simp [pass_hash_of, slice, hdrop, List.take_of_length_le, hh]

set_option maxRecDepth 8192 in
/-- C5: under the allow-list policy holding id 123 with password
"secret", the sequence `RPTL(123)`, `RPTK(123, SHA256(salt‖password))`
with the salt the server sent, then `RPTC`, drives the fresh peer
LOGIN → AUTH → CONFIG → ACTIVE, and each of the three steps emits
exactly one reply bearing the `RPTACK` magic: first the salt, then two
acks carrying the id. -/
theorem claim_C5_handshake (sha : Bytes → Bytes) (s : Bytes)
    (hs : s.length = 4)
    (hh : (sha (s ++ strEncode "secret")).length = 32) :
    (newPeer (1, 1) 10).status = Status.LOGIN ∧
    recv_dg sha c3_policy ServerState.empty (mk_rptl 123) (1, 1) s 10 =
      ⟨⟨[c5_peer1 s], [], []⟩,
       [([82, 80, 84, 65, 67, 75] ++ s, (1, 1))], none⟩ ∧
    (c5_peer1 s).status = Status.AUTH ∧
    recv_dg sha c3_policy ⟨[c5_peer1 s], [], []⟩
        (mk_rptk 123 (calc_password_hash sha s "secret")) (1, 1) [] 11 =
      ⟨⟨[c5_peer2 s], [], []⟩,
       [([82, 80, 84, 65, 67, 75] ++ u32be 123, (1, 1))], none⟩ ∧
    (c5_peer2 s).status = Status.CONFIG ∧
    recv_dg sha c3_policy ⟨[c5_peer2 s], [], []⟩ mk_rptc (1, 1) [] 12 =
      ⟨⟨[c5_peer3 s], [], []⟩,
       [([82, 80, 84, 65, 67, 75] ++ u32be 123, (1, 1))], none⟩ ∧
    (c5_peer3 s).status = Status.ACTIVE := by
  have hsalt : mk_salt_packet s = [82, 80, 84, 65, 67, 75] ++ s := by
    unfold mk_salt_packet createPacket setBytesAt
    simp [pktType, pktSize, hs]
  have hack : mk_peer_packet .ack 123 =
      [82, 80, 84, 65, 67, 75] ++ u32be 123 := rfl
  refine ⟨rfl, ?_, rfl, ?_, rfl, ?_, rfl⟩
  · have h1 : recv_dg sha c3_policy ServerState.empty (mk_rptl 123)
        (1, 1) s 10 =
        ⟨⟨[c5_peer1 s], [], []⟩, [(mk_salt_packet s, (1, 1))], none⟩ :=
      rfl
    rw [h1, hsalt]
  · have hh' : (calc_password_hash sha s "secret").length = 32 := hh
    have hfd := fd_mk_rptk 123 _ hh'
    have hph := pass_hash_of_mk_rptk 123 _ hh'
    have hpid : peer_id_of .auth
        (mk_rptk 123 (calc_password_hash sha s "secret")) = 123 := rfl
    have hcheck : check_password sha c3_policy 123 s
        (pass_hash_of
          (mk_rptk 123 (calc_password_hash sha s "secret"))) = true := by
      rw [hph]
      simp [check_password, c3_policy, calc_password_hash]
    unfold recv_dg
    simp only [hfd]
    unfold process_packet
    simp only [hpid]
    simp [get_by_addr, List.find?, hcheck, Status.is_applicable,
          c5_peer1, c5_peer2, replace_by_addr, mk_peer_packet]
    rfl
  · have h3 : recv_dg sha c3_policy ⟨[c5_peer2 s], [], []⟩ mk_rptc
        (1, 1) [] 12 =
        ⟨⟨[c5_peer3 s], [], []⟩, [(mk_peer_packet .ack 123, (1, 1))],
         none⟩ := rfl
    rw [h3, hack]

/-- Witness for the handshake theorem at a concrete salt and hash
function. -/
theorem claim_C5_handshake_witness :
    (newPeer (1, 1) 10).status = Status.LOGIN ∧
    recv_dg shaStub c3_policy ServerState.empty (mk_rptl 123) (1, 1)
        [1, 2, 3, 4] 10 =
      ⟨⟨[c5_peer1 [1, 2, 3, 4]], [], []⟩,
       [([82, 80, 84, 65, 67, 75] ++ [1, 2, 3, 4], (1, 1))], none⟩ ∧
    (c5_peer1 [1, 2, 3, 4]).status = Status.AUTH ∧
    recv_dg shaStub c3_policy ⟨[c5_peer1 [1, 2, 3, 4]], [], []⟩
        (mk_rptk 123
          (calc_password_hash shaStub [1, 2, 3, 4] "secret")) (1, 1) []
        11 =
      ⟨⟨[c5_peer2 [1, 2, 3, 4]], [], []⟩,
       [([82, 80, 84, 65, 67, 75] ++ u32be 123, (1, 1))], none⟩ ∧
    (c5_peer2 [1, 2, 3, 4]).status = Status.CONFIG ∧
    recv_dg shaStub c3_policy ⟨[c5_peer2 [1, 2, 3, 4]], [], []⟩ mk_rptc
        (1, 1) [] 12 =
      ⟨⟨[c5_peer3 [1, 2, 3, 4]], [], []⟩,
       [([82, 80, 84, 65, 67, 75] ++ u32be 123, (1, 1))], none⟩ ∧
    (c5_peer3 [1, 2, 3, 4]).status = Status.ACTIVE :=
  claim_C5_handshake shaStub [1, 2, 3, 4] (by decide) (by decide)

/-- Witness for the assembler theorem: a concrete `BURST_E` packet fed to
an assembler holding three fragments with matching vseq signals ready
with four stored fragments, and a concrete `BURST_C` packet with a
mismatching vseq raises `wrongVseq` and resets the assembler. -/
theorem claim_C8_emblc_assembler_witness :
    (process_voicedata ⟨[[1, 1, 1, 1], [2, 2, 2, 2], [3, 3, 3, 3]], 3⟩
        ([68, 77, 82, 68] ++ List.replicate 11 0 ++ [4] ++
          List.replicate 39 0)).2.2 = true ∧
    (process_voicedata ⟨[[1, 1, 1, 1], [2, 2, 2, 2], [3, 3, 3, 3]], 3⟩
        ([68, 77, 82, 68] ++ List.replicate 11 0 ++ [4] ++
          List.replicate 39 0)).1.lcs.length = 4 ∧
    process_voicedata ⟨[[0, 0, 0, 0]], 7⟩
        ([68, 77, 82, 68] ++ List.replicate 11 0 ++ [2] ++
          List.replicate 39 0) =
      (EmbLCAssembler.init, some AsmError.wrongVseq, false) := by
  obtain ⟨h1, h2, h3, h4, h5, h6, h7, h8⟩ :=
    claim_C8_emblc_assembler (fun _ => List.replicate 9 0)
  refine ⟨(h1 _ _).mpr (by decide), ?_, ?_⟩
  · exact (h4 _ _ ((h1 _ _).mpr (by decide))).1
  · exact h6 _ _ 1 (by decide) (by decide) (by decide)

/-! ### Registry invariant (C4) -/

theorem peerInv_die (q : Peer) : peerInv q.die := by
  simp [peerInv, Peer.die]

theorem peerInv_newPeer (addr : Addr) (now : Nat) :
    peerInv (newPeer addr now) := by
  simp [peerInv, newPeer]

/-- A peer accepted by the `RPTC` applicability check is in CONFIG or
ACTIVE. -/
theorem is_applicable_config (s : Status)
    (h : s.is_applicable .CONFIG = true) :
    s = .CONFIG ∨ s = .ACTIVE := by
  cases s <;> simp_all [Status.is_applicable]

/-- The controller preserves the peer invariant whenever auth packets
carry a nonzero id and login packets only hit peers still storing id
zero. -/
theorem process_packet_inv (sha : Bytes → Bytes)
    (policy : PeerAuthPolicy) (keeper_peers : List Peer) (peer : Peer)
    (t : PktTag) (d : Bytes) (freshSalt : Bytes) (now : Nat)
    (hp : peerInv peer)
    (hauth : t = .auth → peer_id_of t d ≠ 0)
    (hlogin : t = .login → peer.peer_id = 0) :
    peerInv (process_packet sha policy keeper_peers peer t d freshSalt
      now).peer := by
  cases t with
  | repeaterClose => exact peerInv_die peer
  | dmrData =>
      simp only [process_packet]
      split_ifs <;>
        first
          | exact peerInv_die peer
          | simpa [Peer.update_unit, Peer.update_active, peerInv,
              apply_ite] using hp
  | ping =>
      simp only [process_packet]
      split_ifs <;>
        first
          | exact peerInv_die peer
          | simpa [peerInv, Peer.update_active] using hp
  | login =>
      simp only [process_packet]
      split_ifs <;>
        first
          | exact peerInv_die peer
          | simp [peerInv, hlogin rfl]
  | auth =>
      simp only [process_packet]
      split_ifs <;>
        first
          | exact peerInv_die peer
          | (rcases hsalt : peer.auth_salt with _ | salt <;>
              simp only [hsalt] <;>
              first
                | exact peerInv_die peer
                | (split_ifs <;>
                    first
                      | exact peerInv_die peer
                      | simp [peerInv, hauth rfl]))
  | config =>
      simp only [process_packet]
      split_ifs with h1 <;>
        first
          | exact peerInv_die peer
          | (rcases is_applicable_config peer.status (by simpa using h1)
                with hs | hs <;>
              simp [peerInv, hp.mpr (by simp [hs])])
  | masterNoAck => exact hp
  | masterClose => exact hp
  | ack => exact hp
  | pong => exact hp
  | salt => exact hp
  | beacon => exact hp
  | talkerAlias => exact hp

/-- Replacement by address only introduces the replacement peer. -/
theorem mem_replace_by_addr (peers : List Peer) (addr : Addr)
    (q p : Peer) (h : p ∈ replace_by_addr peers addr q) :
    p = q ∨ p ∈ peers := by
  unfold replace_by_addr at h
  obtain ⟨a, ha, hpa⟩ := List.mem_map.mp h
  by_cases hc : a.addr = addr
  · rw [if_pos hc] at hpa
    exact Or.inl hpa.symm
  · rw [if_neg hc] at hpa
    exact Or.inr (hpa ▸ ha)

/-- The data dispatch path never touches the peer registry. -/
theorem dispatch_data_packet_peers (st : ServerState) (d : Bytes)
    (a : Addr) (n : Nat) :
    (dispatch_data_packet st d a n).state.peers = st.peers := by
  unfold dispatch_data_packet
  rcases h : by_call_id st.calls (DMRD.stream_id d) with _ | c <;>
    simp [h]

/-- One receive step preserves the registry invariant under the event
side conditions. -/
theorem recv_dg_inv (sha : Bytes → Bytes) (policy : PeerAuthPolicy)
    (st : ServerState) (data : Bytes) (addr : Addr) (freshSalt : Bytes)
    (now : Nat) (hinv : ∀ p ∈ st.peers, peerInv p)
    (hok : eventOk st (.recv data addr freshSalt)) :
    ∀ p ∈ (recv_dg sha policy st data addr freshSalt now).state.peers,
      peerInv p := by
  simp only [eventOk] at hok
  unfold recv_dg
  rcases hga : get_by_addr st.peers addr with _ | peer
  · -- fresh address: the registry grows by a LOGIN peer
    have hpeers1 : ∀ p ∈ st.peers ++ [newPeer addr now], peerInv p := by
      intro p hp
      rcases List.mem_append.mp hp with h | h
      · exact hinv p h
      · rw [List.mem_singleton.mp h]
        exact peerInv_newPeer addr now
    have hga2 := get_by_addr_append st.peers addr (newPeer addr now)
      rfl hga
    have hpid0 : (newPeer addr now).peer_id = 0 := rfl
    simp only [hga2]
    rcases hfd : DMRPPacketFactory.fd data with _ | td
    · exact hpeers1
    · obtain ⟨t, d⟩ := td
      rw [hfd] at hok
      have hinv2 : peerInv (process_packet sha policy
          (st.peers ++ [newPeer addr now]) (newPeer addr now) t d
          freshSalt now).peer := by
        apply process_packet_inv _ _ _ _ _ _ _ _
          (peerInv_newPeer addr now)
        · intro ht
          subst ht
          exact hok
        · intro _
          exact hpid0
      have hrep : ∀ p ∈ replace_by_addr (st.peers ++ [newPeer addr now])
          addr (process_packet sha policy
            (st.peers ++ [newPeer addr now]) (newPeer addr now) t d
            freshSalt now).peer, peerInv p := by
        intro p hp
        rcases mem_replace_by_addr _ _ _ _ hp with h | h
        · rw [h]; exact hinv2
        · exact hpeers1 p h
      dsimp only
      split_ifs <;>
        first
          | (rw [dispatch_data_packet_peers]; exact hrep)
          | exact hrep
  · -- known address
    have hmem : peer ∈ st.peers := List.mem_of_find?_eq_some hga
    simp only [hga]
    rcases hfd : DMRPPacketFactory.fd data with _ | td
    · exact hinv
    · obtain ⟨t, d⟩ := td
      rw [hfd] at hok
      have hinv2 : peerInv (process_packet sha policy st.peers peer t d
          freshSalt now).peer := by
        apply process_packet_inv _ _ _ _ _ _ _ _ (hinv peer hmem)
        · intro ht
          subst ht
          exact hok
        · intro ht
          subst ht
          rw [hga] at hok
          exact hok
      have hrep : ∀ p ∈ replace_by_addr st.peers addr
          (process_packet sha policy st.peers peer t d freshSalt
            now).peer, peerInv p := by
        intro p hp
        rcases mem_replace_by_addr _ _ _ _ hp with h | h
        · rw [h]; exact hinv2
        · exact hinv p h
      dsimp only
      split_ifs <;>
        first
          | (rw [dispatch_data_packet_peers]; exact hrep)
          | exact hrep

/-- Maintenance preserves the registry invariant. -/
theorem maintain_inv (st : ServerState) (now : Nat)
    (hinv : ∀ p ∈ st.peers, peerInv p) :
    ∀ p ∈ (st.maintain now).peers, peerInv p := by
  intro p hp
  unfold ServerState.maintain PeerKeeper.maintain at hp
  obtain ⟨hp1, _⟩ := List.mem_filter.mp hp
  obtain ⟨q, hq, rfl⟩ := List.mem_map.mp hp1
  unfold maintainPeer
  dsimp only
  split_ifs
  · simpa [peerInv] using hinv q hq
  · exact peerInv_die _

/-- C4 amended: the invariant "peer_id is nonzero iff status is CONFIG or
ACTIVE" holds after every run, provided every processed `RPTK` carries a
nonzero id and every processed `RPTL` hits a peer whose stored id is
still zero (the counterexample shows both provisos are necessary). -/
theorem claim_C4_amended (sha : Bytes → Bytes) (policy : PeerAuthPolicy)
    (st0 : ServerState) (evs : List (Event × Nat))
    (h0 : ∀ p ∈ st0.peers, peerInv p)
    (hok : RunOk sha policy st0 evs) :
    ∀ p ∈ (dmrRun sha policy st0 evs).peers, peerInv p := by
  induction evs generalizing st0 with
  | nil => exact h0
  | cons en rest ih =>
      obtain ⟨e, n⟩ := en
      obtain ⟨hev, hrest⟩ := hok
      cases e with
      | recv data addr fs =>
          exact ih _ (recv_dg_inv sha policy st0 data addr fs n h0 hev)
            hrest
      | maintain => exact ih _ (maintain_inv st0 n h0) hrest

set_option maxRecDepth 8192 in
/-- Witness for the amended invariant: after a clean full handshake (and
a maintenance tick) the surviving peer satisfies the invariant. -/
theorem claim_C4_amended_witness :
    peerInv ((dmrRun shaStub .allowAll .empty c4_runC).peers.getD 0
      (newPeer (0, 0) 0)) := by
  have h := claim_C4_amended shaStub .allowAll .empty c4_runC
    (by simp [ServerState.empty])
    ⟨trivial,
     by show peer_id_of .auth (mk_rptk 123 (List.replicate 32 7)) ≠ 0
        decide,
     trivial, trivial, trivial⟩
  exact h _ (by decide)

end DMRMaster
